import Mathlib

/-!
Verification of the TalentTriage resume intake-and-scoring pipeline.

The repository ships the dashboard frontend (TypeScript), the SQL schema and
documentation; the worker/scoring backend itself is not part of the source
tree, so the Scoring Stage, the Dispatcher and the status state machine are
modelled from the specification (each such definition is marked
`Modelled from the spec:`).  Frontend helpers (`getCategoryColor`,
`statusCounts`) and the schema's uniqueness constraint are embedded directly
from the source files.

Scores are represented as exact rationals (ℚ); skill sets as finite sets of
normalized strings.  String lowercasing/trimming is defined character-wise so
that every definition evaluates inside the kernel.
-/

/-- Lowercase a string character by character (the model of
`String.toLowerCase` from the TypeScript source and of the spec's
case-insensitive comparisons). -/
def toLowerCase (s : String) : String := String.mk (s.data.map Char.toLower)

/-- Strip leading and trailing whitespace from a string (the model of
`trim`). -/
def trimString (s : String) : String :=
  String.mk (((s.data.dropWhile Char.isWhitespace).reverse.dropWhile
    Char.isWhitespace).reverse)

/-- Decide whether `needle` occurs as a contiguous substring of
`haystack`. -/
def isSubstringOf (needle : List Char) : List Char → Bool
  | [] => needle.isEmpty
  | c :: rest => needle.isPrefixOf (c :: rest) || isSubstringOf needle rest

/-- Modelled from the spec: a work-experience entry of a ParsedResume
(§3: title, company, start, end, description, computed tenure in years).
Only the tenure matters to scoring. -/
structure WorkEntry where
  title : Option String
  company : Option String
  start : Option String
  stop : Option String
  description : Option String
  tenureYears : ℚ

/-- Modelled from the spec: the candidate-side fields consumed by the Scoring
Stage (ParsedResume, §3): skills, work experience, concatenated education
text, and the L2-normalized embedding vector. -/
structure Candidate where
  name : Option String
  email : Option String
  phone : Option String
  skills : List String
  workExperience : List WorkEntry
  educationText : String
  embedding : List ℚ

/-- Modelled from the spec: the job-side fields consumed by the Scoring Stage
(Job, §3): required skills, optional minimum years of experience, preferred
education keywords, and the job-description embedding. -/
structure Job where
  title : String
  description : String
  requiredSkills : List String
  preferredSkills : List String
  minYearsExperience : Option ℚ
  preferredEducation : List String
  embedding : List ℚ

/-- Modelled from the spec: the Scoring Stage output for one
(candidate, job) pair — four component scores, a composite score and a
category label (CandidateScore, §3; mirrors the candidate_score table). -/
structure CandidateScore where
  semantic_score : ℚ
  skills_score : ℚ
  experience_score : ℚ
  education_score : ℚ
  composite_score : ℚ
  category : String

/-- Modelled from the spec: skill normalization — case-insensitive comparison
after trimming (§4.4). -/
def normalizeSkill (s : String) : String := toLowerCase (trimString s)

/-- Modelled from the spec: a skill list viewed as a set of normalized
skills (order-irrelevant, duplicates collapse). -/
def skillSet (l : List String) : Finset String := (l.map normalizeSkill).toFinset

/-- Modelled from the spec: the skills score (§4.4) — Jaccard similarity of
the normalized candidate and required skill sets; 1 when the job requires no
skills, 0 when the candidate has none but the job requires some. -/
def skillsScore (cand req : List String) : ℚ :=
  let c := skillSet cand
  let r := skillSet req
  if r = ∅ then 1
  else if c = ∅ then 0
  else ((c ∩ r).card : ℚ) / ((c ∪ r).card : ℚ)

/-- Dot product of two vectors; on L2-normalized vectors this is the cosine
similarity (§4.3). -/
def dotProduct (a b : List ℚ) : ℚ := (List.zipWith (fun x y => x * y) a b).sum

/-- Clamp a rational into the unit interval [0, 1]. -/
def clamp01 (x : ℚ) : ℚ := max 0 (min x 1)

/-- Modelled from the spec: the semantic score (§4.4) — cosine similarity of
the two embeddings, clamped to [0,1] (negative similarities clamp to 0). -/
def semanticScore (candEmb jobEmb : List ℚ) : ℚ := clamp01 (dotProduct candEmb jobEmb)

/-- Modelled from the spec: per-entry tenure clipped to non-negative
(§4.2). -/
def entryTenure (w : WorkEntry) : ℚ := max 0 w.tenureYears

/-- Modelled from the spec: total years of experience — the simple sum of the
clipped per-entry tenures, overlaps not de-duplicated (§4.2). -/
def totalYearsExp (ws : List WorkEntry) : ℚ := (ws.map entryTenure).sum

/-- Modelled from the spec: the experience score (§4.4) —
`min(total_years / min_years, 1)` when a positive requirement is set,
otherwise 1. -/
def experienceScore (totalYears : ℚ) (minYears : Option ℚ) : ℚ :=
  match minYears with
  | none => 1
  | some m => if m ≤ 0 then 1 else min (totalYears / m) 1

/-- Modelled from the spec: case-insensitive substring match of an education
keyword against the candidate's education text (§4.4). -/
def keywordInText (keyword text : String) : Bool :=
  isSubstringOf (toLowerCase keyword).data (toLowerCase text).data

/-- Modelled from the spec: the education score (§4.4) — the fraction of the
job's preferred-education keywords found in the education text; 1 when the
job specifies none. -/
def educationScore (preferred : List String) (eduText : String) : ℚ :=
  if preferred = [] then 1
  else ((preferred.filter (fun k => keywordInText k eduText)).length : ℚ) /
       ((preferred.length : ℚ))

/-- Modelled from the spec: category banding of the composite score —
`top` at ≥ 0.75, `moderate` at ≥ 0.50, `reject` otherwise (§4.4; also
README.md "Scoring Methodology"). -/
def categorize (c : ℚ) : String :=
  if 0.75 ≤ c then "top"
  else if 0.5 ≤ c then "moderate"
  else "reject"

/-- Modelled from the spec: the Scoring Stage (§4.4) — computes the four
component scores from the candidate and job fields, the weighted composite
`0.50*semantic + 0.30*skills + 0.15*experience + 0.05*education` clamped to
[0,1], and the category. -/
def scoreCandidate (c : Candidate) (j : Job) : CandidateScore :=
  let sem := semanticScore c.embedding j.embedding
  let sk := skillsScore c.skills j.requiredSkills
  let ex := experienceScore (totalYearsExp c.workExperience) j.minYearsExperience
  let ed := educationScore j.preferredEducation c.educationText
  let comp := clamp01 (0.5 * sem + 0.3 * sk + 0.15 * ex + 0.05 * ed)
  { semantic_score := sem
    skills_score := sk
    experience_score := ex
    education_score := ed
    composite_score := comp
    category := categorize comp }

/-- Embedded from the source (components/CandidateTable.tsx and
pages/job/[job_id]/candidate/[candidate_id].tsx, `getCategoryColor`): maps a
category string, lowercased, to a chip color, with `default` as the
catch-all branch. -/
def getCategoryColor (category : String) : String :=
  if toLowerCase category = "top" then "success"
  else if toLowerCase category = "moderate" then "warning"
  else if toLowerCase category = "reject" then "error"
  else "default"

example : getCategoryColor "TOP" = "success" := by decide
example : getCategoryColor "weird" = "default" := by decide
example : categorize (3/4) = "top" := by norm_num [categorize]
example : skillsScore ["Python", "React", "SQL"] ["Python", "React"] = 2/3 := by
  have h1 : ¬ (skillSet ["Python", "React"] = ∅) := by decide
  have h2 : ¬ (skillSet ["Python", "React", "SQL"] = ∅) := by decide
  have h3 : (skillSet ["Python", "React", "SQL"] ∩ skillSet ["Python", "React"]).card = 2 := by
    decide
  have h4 : (skillSet ["Python", "React", "SQL"] ∪ skillSet ["Python", "React"]).card = 3 := by
    decide
  simp only [skillsScore, if_neg h1, if_neg h2, h3, h4]
  norm_num

/-- Modelled from the spec: the pipeline stages carried by Task Queue
messages — `stage ∈ \x7bparse, embed, score\x7d` (§6). -/
inductive Stage
  | parse
  | embed
  | score
deriving DecidableEq, Fintype

/-- Modelled from the spec: the Upload lifecycle states (§4.5), matching the
TypeScript union `'stored' | 'parsed' | 'embedded' | 'scored' | 'error'` and
the uploads.status column. -/
inductive Status
  | stored
  | parsed
  | embedded
  | scored
  | error
deriving DecidableEq, Fintype

/-- Modelled from the spec: the status a stage's task requires before it may
run — `parse` at `stored`, `embed` at `parsed`, `score` at `embedded`
(§4.1). -/
def requiredStatus : Stage → Status
  | .parse => .stored
  | .embed => .parsed
  | .score => .embedded

/-- Modelled from the spec: the status an upload advances to when a stage
succeeds (§4.1). -/
def nextStatus : Stage → Status
  | .parse => .parsed
  | .embed => .embedded
  | .score => .scored

/-- Modelled from the spec: the status transition performed by the
Dispatcher when one task is handled (§4.1/§4.5): if the current status
matches the stage's required status, success advances it and permanent
failure sets `error`; any mismatched task (duplicate redelivery or skip)
leaves the status unchanged. -/
def handleTask (st : Status) (t : Stage) (ok : Bool) : Status :=
  if st = requiredStatus t then
    (if ok then nextStatus t else Status.error)
  else st

/-- Modelled from the spec: a reprocess request resets the status to
`stored` regardless of the prior state (§4.1/§4.5). -/
def reprocessStatus (_st : Status) : Status := Status.stored

/-- One forward edge of the linear order `stored→parsed→embedded→scored`
(§4.5). -/
def forwardStep (a b : Status) : Prop :=
  (a = .stored ∧ b = .parsed) ∨ (a = .parsed ∧ b = .embedded) ∨
    (a = .embedded ∧ b = .scored)

/-- Outcome a stage handler reports to the Dispatcher: success, idempotent
skip (also a success from the caller's point of view), or failure. -/
inductive Outcome
  | ok
  | skipped
  | failed
deriving DecidableEq

/-- Whether an outcome counts as success (the idempotent skip does, §4.1). -/
def isSuccess : Outcome → Bool
  | .ok => true
  | .skipped => true
  | .failed => false

/-- Modelled from the spec: the Status Store's view of one upload — its
lifecycle status, the optional error message, and the ParsedResume produced
by the Parse Stage, if any (§2, §3). -/
structure UploadState (α : Type) where
  status : Status
  errorMessage : Option String
  parsedResume : Option α

/-- Modelled from the spec: the Dispatcher handling one `parse` task
(§4.1): at status `stored` the parse either succeeds (persist output,
advance to `parsed`) or fails permanently (status `error` with a message);
at any other status the task is a duplicate and is treated as a no-op
success that mutates nothing. -/
def handleParseTask {α : Type} (s : UploadState α) (result : Except String α) :
    UploadState α × Outcome :=
  if s.status = Status.stored then
    match result with
    | .ok out => ({ s with status := .parsed, parsedResume := some out }, .ok)
    | .error msg => ({ s with status := .error, errorMessage := some msg }, .failed)
  else (s, .skipped)

/-- Modelled from the spec: the pipeline state visible to a reprocess
request — the upload's Status Store record plus the Task Queue (§4.1). -/
structure SystemState (α : Type) where
  upload : UploadState α
  queue : List Stage

/-- Modelled from the spec: the reprocess request (the backend handler
behind `POST /reprocess/:id`, called by `reprocessUpload` in
frontend/utils/api.ts): reset status to `stored`, clear error_message, and
enqueue a fresh `parse` task (§4.1). -/
def reprocessUpload {α : Type} (s : SystemState α) : SystemState α :=
  { upload := { status := Status.stored, errorMessage := none,
                parsedResume := s.upload.parsedResume },
    queue := s.queue ++ [Stage.parse] }

/-- Embedded from the source (sql/002_schema.sql, candidate_score): the
columns relevant to the `UNIQUE(candidate_id, job_id)` constraint together
with the stored score. -/
structure ScoreRow where
  candidate_id : String
  job_id : String
  composite_score : ℚ
  category : String

/-- Key of a candidate_score row — the pair constrained UNIQUE by the
schema. -/
def scoreKey (r : ScoreRow) : String × String := (r.candidate_id, r.job_id)

/-- The schema's `UNIQUE(candidate_id, job_id)` constraint on a table state:
no two rows share a key. -/
def uniqueScoreKeys (t : List ScoreRow) : Prop :=
  t.Pairwise (fun a b => scoreKey a ≠ scoreKey b)

/-- Modelled from the spec: re-scoring a (candidate, job) pair overwrites
the existing candidate_score row when one exists and inserts otherwise
(§3) — an upsert against the UNIQUE constraint. -/
def upsertScore (t : List ScoreRow) (r : ScoreRow) : List ScoreRow :=
  if t.any (fun x => decide (scoreKey x = scoreKey r)) then
    t.map (fun x => if scoreKey x = scoreKey r then r else x)
  else t ++ [r]

/-- Embedded from the source (pages/resumes/index.tsx): the upload-row
fields the resumes dashboard uses when counting by status. -/
structure ResumeRow where
  original_filename : String
  status : String

/-- Embedded from the source (pages/resumes/index.tsx, `statusCounts`): the
per-status tile counts, each a filter of the fetched rows on one status
literal. -/
structure StatusCounts where
  stored : Nat
  parsed : Nat
  embedded : Nat
  scored : Nat
  error : Nat

/-- Embedded from the source (pages/resumes/index.tsx, `statusCounts`). -/
def statusCounts (resumes : List ResumeRow) : StatusCounts :=
  { stored := (resumes.filter (fun r => r.status == "stored")).length
    parsed := (resumes.filter (fun r => r.status == "parsed")).length
    embedded := (resumes.filter (fun r => r.status == "embedded")).length
    scored := (resumes.filter (fun r => r.status == "scored")).length
    error := (resumes.filter (fun r => r.status == "error")).length }

instance (a b : Status) : Decidable (forwardStep a b) := by
  unfold forwardStep
  infer_instance

/-- Helper: `clamp01` lands in the unit interval. -/
theorem clamp01_mem (x : ℚ) : 0 ≤ clamp01 x ∧ clamp01 x ≤ 1 :=
  ⟨le_max_left 0 _, max_le (by norm_num) (min_le_right x 1)⟩

/-- C2: category assignment is exactly `top` at composite ≥ 0.75, `moderate`
on [0.50, 0.75), `reject` below 0.50; a composite of exactly 0.75 is `top`,
0.4999 is `reject`; every produced category is one of the three labels; and
the Scoring Stage's category field is this function of its composite. -/
theorem categorize_thresholds :
    (∀ q : ℚ,
      (0.75 ≤ q → categorize q = "top") ∧
      (0.5 ≤ q → q < 0.75 → categorize q = "moderate") ∧
      (q < 0.5 → categorize q = "reject") ∧
      (categorize q = "top" ∨ categorize q = "moderate" ∨ categorize q = "reject")) ∧
    categorize 0.75 = "top" ∧ categorize 0.4999 = "reject" ∧
    ∀ c j, (scoreCandidate c j).category = categorize (scoreCandidate c j).composite_score := by
  refine ⟨fun q => ⟨?_, ?_, ?_, ?_⟩, by norm_num [categorize], by norm_num [categorize],
    fun c j => rfl⟩ <;> unfold categorize <;> intros <;>
    split_ifs <;> first
      | rfl
      | (exfalso; linarith)
      | (first | exact Or.inl rfl | exact Or.inr (Or.inl rfl) | exact Or.inr (Or.inr rfl))

/-- Witness for C2 at concrete composites on each side of both boundaries. -/
theorem categorize_thresholds_witness :
    categorize 0.8 = "top" ∧ categorize 0.6 = "moderate" ∧ categorize 0.3 = "reject" :=
  ⟨(categorize_thresholds.1 0.8).1 (by norm_num),
   (categorize_thresholds.1 0.6).2.1 (by norm_num) (by norm_num),
   (categorize_thresholds.1 0.3).2.2.1 (by norm_num)⟩

/-- C5: handling any task either leaves the status unchanged, advances it by
one forward edge of `stored→parsed→embedded→scored`, or jumps to `error`
from a non-terminal state — the status never regresses; and a reprocess
request resets any status to `stored`.  (The status domain is exactly the
five values of `Status` by construction.) -/
theorem status_never_regresses :
    (∀ (st : Status) (t : Stage) (ok : Bool),
      handleTask st t ok = st ∨ forwardStep st (handleTask st t ok) ∨
        (handleTask st t ok = Status.error ∧ st ≠ Status.scored ∧ st ≠ Status.error)) ∧
    ∀ st : Status, reprocessStatus st = Status.stored :=
  ⟨by decide, fun _ => rfl⟩

/-- C6: replaying a `parse` task for an upload already at `embedded` or
`scored` is a no-op success: the Status Store record (status and
ParsedResume included) is returned unchanged and the outcome counts as
success, not error. -/
theorem parse_replay_noop {α : Type} (s : UploadState α) (result : Except String α)
    (h : s.status = Status.embedded ∨ s.status = Status.scored) :
    handleParseTask s result = (s, Outcome.skipped) ∧
      (handleParseTask s result).1.status = s.status ∧
      (handleParseTask s result).1.parsedResume = s.parsedResume ∧
      isSuccess (handleParseTask s result).2 = true := by
  have hne : ¬ (s.status = Status.stored) := by
    rcases h with h | h <;> simp [h]
  simp [handleParseTask, hne, isSuccess]

/-- Witness for C6: a redelivered parse task at status `embedded` leaves the
record untouched and reports a successful skip. -/
theorem parse_replay_noop_witness :
    handleParseTask (UploadState.mk Status.embedded none (none : Option Nat))
        (Except.ok 0) =
      (UploadState.mk Status.embedded none none, Outcome.skipped) :=
  (parse_replay_noop _ _ (Or.inl rfl)).1

/-- C7: a reprocess request, from any state (terminal ones included), sets
the upload's status to `stored`, clears the error message, and enqueues a
fresh `parse` task. -/
theorem reprocess_restarts_pipeline {α : Type} (s : SystemState α) :
    (reprocessUpload s).upload.status = Status.stored ∧
    (reprocessUpload s).upload.errorMessage = none ∧
    Stage.parse ∈ (reprocessUpload s).queue := by
  refine ⟨rfl, rfl, ?_⟩
  simp [reprocessUpload]

/-- C9: `getCategoryColor` is total on strings: it returns `success`
exactly when the input lowercases to `top`, `warning` exactly for
`moderate`, `error` exactly for `reject`, and always one of the four colors
(so anything else falls to `default`). -/
theorem getCategoryColor_total (s : String) :
    (getCategoryColor s = "success" ↔ toLowerCase s = "top") ∧
    (getCategoryColor s = "warning" ↔ toLowerCase s = "moderate") ∧
    (getCategoryColor s = "error" ↔ toLowerCase s = "reject") ∧
    (getCategoryColor s = "success" ∨ getCategoryColor s = "warning" ∨
      getCategoryColor s = "error" ∨ getCategoryColor s = "default") := by
  unfold getCategoryColor
  split_ifs with h1 h2 h3 <;>
    refine ⟨?_, ?_, ?_, ?_⟩ <;>
    simp_all

/-- C10: when every fetched upload row has one of the five pipeline
statuses, the resumes dashboard's five per-status counts sum to the total
number of rows — the tiles partition the list. -/
theorem statusCounts_partition (rs : List ResumeRow)
    (h : ∀ r ∈ rs, r.status = "stored" ∨ r.status = "parsed" ∨
      r.status = "embedded" ∨ r.status = "scored" ∨ r.status = "error") :
    (statusCounts rs).stored + (statusCounts rs).parsed +
      (statusCounts rs).embedded + (statusCounts rs).scored +
      (statusCounts rs).error = rs.length := by
  induction rs with
  | nil => simp [statusCounts]
  | cons r t ih =>
    have hr := h r (by simp)
    have ht := ih (fun x hx => h x (by simp [hx]))
    simp only [statusCounts, List.filter_cons] at ht ⊢
    rcases hr with h1 | h1 | h1 | h1 | h1 <;>
      simp only [h1, List.length_cons] <;>
      simp +decide <;> omega

/-- Witness for C10 on a concrete two-row list. -/
theorem statusCounts_partition_witness :
    (statusCounts [ResumeRow.mk "a.pdf" "stored", ResumeRow.mk "b.pdf" "error"]).stored +
      (statusCounts [ResumeRow.mk "a.pdf" "stored", ResumeRow.mk "b.pdf" "error"]).parsed +
      (statusCounts [ResumeRow.mk "a.pdf" "stored", ResumeRow.mk "b.pdf" "error"]).embedded +
      (statusCounts [ResumeRow.mk "a.pdf" "stored", ResumeRow.mk "b.pdf" "error"]).scored +
      (statusCounts [ResumeRow.mk "a.pdf" "stored", ResumeRow.mk "b.pdf" "error"]).error =
      (List.length [ResumeRow.mk "a.pdf" "stored", ResumeRow.mk "b.pdf" "error"]) :=
  statusCounts_partition _ (by decide)

/-- C1: the composite score is the fixed-weight linear combination
`0.50*semantic + 0.30*skills + 0.15*experience + 0.05*education` clamped to
[0,1], and it depends on nothing but the four component scores: any two
scoring inputs with equal components get equal composites. -/
theorem composite_weighted :
    (∀ c j, (scoreCandidate c j).composite_score =
      clamp01 (0.5 * (scoreCandidate c j).semantic_score +
        0.3 * (scoreCandidate c j).skills_score +
        0.15 * (scoreCandidate c j).experience_score +
        0.05 * (scoreCandidate c j).education_score)) ∧
    (∀ c₁ j₁ c₂ j₂,
      (scoreCandidate c₁ j₁).semantic_score = (scoreCandidate c₂ j₂).semantic_score →
      (scoreCandidate c₁ j₁).skills_score = (scoreCandidate c₂ j₂).skills_score →
      (scoreCandidate c₁ j₁).experience_score = (scoreCandidate c₂ j₂).experience_score →
      (scoreCandidate c₁ j₁).education_score = (scoreCandidate c₂ j₂).education_score →
      (scoreCandidate c₁ j₁).composite_score = (scoreCandidate c₂ j₂).composite_score) := by
  refine ⟨fun c j => rfl, fun c₁ j₁ c₂ j₂ h1 h2 h3 h4 => ?_⟩
  have e1 : (scoreCandidate c₁ j₁).composite_score =
      clamp01 (0.5 * (scoreCandidate c₁ j₁).semantic_score +
        0.3 * (scoreCandidate c₁ j₁).skills_score +
        0.15 * (scoreCandidate c₁ j₁).experience_score +
        0.05 * (scoreCandidate c₁ j₁).education_score) := rfl
  have e2 : (scoreCandidate c₂ j₂).composite_score =
      clamp01 (0.5 * (scoreCandidate c₂ j₂).semantic_score +
        0.3 * (scoreCandidate c₂ j₂).skills_score +
        0.15 * (scoreCandidate c₂ j₂).experience_score +
        0.05 * (scoreCandidate c₂ j₂).education_score) := rfl
  rw [e1, e2, h1, h2, h3, h4]

/-- Sample candidate used to instantiate the scoring theorems. -/
def candA : Candidate :=
  { name := none, email := none, phone := none, skills := [],
    workExperience := [], educationText := "", embedding := [] }

/-- Same scoring-relevant fields as `candA` but a different record. -/
def candB : Candidate := { candA with name := some "B" }

/-- Sample job used to instantiate the scoring theorems. -/
def jobA : Job :=
  { title := "", description := "", requiredSkills := [], preferredSkills := [],
    minYearsExperience := none, preferredEducation := [], embedding := [] }

/-- Witness for C1: two distinct scoring inputs with equal component scores
receive equal composites. -/
theorem composite_weighted_witness :
    (scoreCandidate candA jobA).composite_score =
      (scoreCandidate candB jobA).composite_score :=
  composite_weighted.2 candA jobA candB jobA rfl rfl rfl rfl

/-- Helper: the skills score lies in [0, 1]. -/
theorem skillsScore_mem01 (cand req : List String) :
    0 ≤ skillsScore cand req ∧ skillsScore cand req ≤ 1 := by
  simp only [skillsScore]
  split_ifs with h1 h2
  · exact ⟨zero_le_one, le_refl 1⟩
  · exact ⟨le_refl 0, zero_le_one⟩
  · constructor
    · exact div_nonneg (Nat.cast_nonneg _) (Nat.cast_nonneg _)
    · refine div_le_one_of_le₀ ?_ (Nat.cast_nonneg _)
      exact_mod_cast Finset.card_le_card Finset.inter_subset_union

/-- Helper: the experience score lies in [0, 1] once the total years of
experience are non-negative. -/
theorem experienceScore_mem01 (t : ℚ) (m : Option ℚ) (ht : 0 ≤ t) :
    0 ≤ experienceScore t m ∧ experienceScore t m ≤ 1 := by
  cases m with
  | none => exact ⟨zero_le_one, le_refl 1⟩
  | some v =>
    simp only [experienceScore]
    split_ifs with h
    · exact ⟨zero_le_one, le_refl 1⟩
    · exact ⟨le_min (div_nonneg ht (not_le.mp h).le) zero_le_one, min_le_right _ _⟩

/-- Helper: total years of experience, as the sum of clipped tenures, is
non-negative. -/
theorem totalYearsExp_nonneg (ws : List WorkEntry) : 0 ≤ totalYearsExp ws := by
  apply List.sum_nonneg
  intro x hx
  simp only [List.mem_map] at hx
  obtain ⟨w, _, rfl⟩ := hx
  exact le_max_left 0 _

/-- Helper: the education score lies in [0, 1]. -/
theorem educationScore_mem01 (p : List String) (t : String) :
    0 ≤ educationScore p t ∧ educationScore p t ≤ 1 := by
  unfold educationScore
  split_ifs with h
  · exact ⟨zero_le_one, le_refl 1⟩
  · constructor
    · exact div_nonneg (Nat.cast_nonneg _) (Nat.cast_nonneg _)
    · refine div_le_one_of_le₀ ?_ (Nat.cast_nonneg _)
      exact_mod_cast List.length_filter_le _ _

/-- C3: on every scoring input — adversarial ones included (empty skill
sets, absent or zero minimum-experience requirement, negative cosine
similarity) — all four component scores and the composite score of the
produced CandidateScore lie in [0, 1]. -/
theorem scores_unit_interval (c : Candidate) (j : Job) :
    (0 ≤ (scoreCandidate c j).semantic_score ∧ (scoreCandidate c j).semantic_score ≤ 1) ∧
    (0 ≤ (scoreCandidate c j).skills_score ∧ (scoreCandidate c j).skills_score ≤ 1) ∧
    (0 ≤ (scoreCandidate c j).experience_score ∧ (scoreCandidate c j).experience_score ≤ 1) ∧
    (0 ≤ (scoreCandidate c j).education_score ∧ (scoreCandidate c j).education_score ≤ 1) ∧
    (0 ≤ (scoreCandidate c j).composite_score ∧ (scoreCandidate c j).composite_score ≤ 1) :=
  ⟨clamp01_mem _, skillsScore_mem01 _ _,
    experienceScore_mem01 _ _ (totalYearsExp_nonneg _),
    educationScore_mem01 _ _, clamp01_mem _⟩

/-- Helper: the normalized skill set is empty exactly when the skill list
is. -/
theorem skillSet_empty_iff (l : List String) : skillSet l = ∅ ↔ l = [] := by
  unfold skillSet
  rw [List.toFinset_eq_empty_iff, List.map_eq_nil_iff]

/-- C4: the skills score is the Jaccard similarity on case-insensitively
normalized skill sets: 1 when the job requires no skills, 0 when the
candidate has none against a non-empty requirement, `|C∩R|/|C∪R|` when both
are non-empty; sets equal after normalization give 1 and disjoint non-empty
sets give 0. -/
theorem skillsScore_jaccard (cand req : List String) :
    (req = [] → skillsScore cand req = 1) ∧
    (cand = [] → req ≠ [] → skillsScore cand req = 0) ∧
    (cand ≠ [] → req ≠ [] → skillsScore cand req =
      ((skillSet cand ∩ skillSet req).card : ℚ) /
        ((skillSet cand ∪ skillSet req).card : ℚ)) ∧
    (skillSet cand = skillSet req → skillsScore cand req = 1) ∧
    (skillSet cand ∩ skillSet req = ∅ → cand ≠ [] → req ≠ [] →
      skillsScore cand req = 0) := by
  refine ⟨?_, ?_, ?_, ?_, ?_⟩
  · intro h
    subst h
    simp only [skillsScore]
    rw [if_pos ((skillSet_empty_iff []).mpr rfl)]
  · intro hc hr
    subst hc
    simp only [skillsScore]
    rw [if_neg (fun he => hr ((skillSet_empty_iff req).mp he)),
      if_pos ((skillSet_empty_iff []).mpr rfl)]
  · intro hc hr
    simp only [skillsScore]
    rw [if_neg (fun he => hr ((skillSet_empty_iff req).mp he)),
      if_neg (fun he => hc ((skillSet_empty_iff cand).mp he))]
  · intro heq
    by_cases hr : req = []
    · subst hr
      simp only [skillsScore]
      rw [if_pos ((skillSet_empty_iff []).mpr rfl)]
    · have hrne : ¬ (skillSet req = ∅) := fun he => hr ((skillSet_empty_iff req).mp he)
      have hcne : ¬ (skillSet cand = ∅) := by
        rw [heq]
        exact hrne
      simp only [skillsScore]
      rw [if_neg hrne, if_neg hcne, heq, Finset.inter_self, Finset.union_self]
      have hpos : 0 < (skillSet req).card :=
        Finset.card_pos.mpr (Finset.nonempty_iff_ne_empty.mpr hrne)
      have hne : ((skillSet req).card : ℚ) ≠ 0 := by
        exact_mod_cast Nat.pos_iff_ne_zero.mp hpos
      exact div_self hne
  · intro hdis hc hr
    simp only [skillsScore]
    rw [if_neg (fun he => hr ((skillSet_empty_iff req).mp he)),
      if_neg (fun he => hc ((skillSet_empty_iff cand).mp he)), hdis]
    simp

/-- Witness for C4: empty requirement, empty candidate, case/trim-equal
sets and disjoint sets, all at concrete skill lists. -/
theorem skillsScore_jaccard_witness :
    skillsScore ["Python"] [] = 1 ∧
    skillsScore [] ["Python"] = 0 ∧
    skillsScore [" PYTHON "] ["python"] = 1 ∧
    skillsScore ["Python"] ["React"] = 0 :=
  ⟨(skillsScore_jaccard ["Python"] []).1 rfl,
   (skillsScore_jaccard [] ["Python"]).2.1 rfl (by decide),
   (skillsScore_jaccard [" PYTHON "] ["python"]).2.2.2.1 (by decide),
   (skillsScore_jaccard ["Python"] ["React"]).2.2.2.2 (by decide) (by decide) (by decide)⟩

/-- Helper: under the UNIQUE constraint a table holds at most one row with a
given (candidate_id, job_id) key. -/
theorem uniqueScoreKeys_countP_le (t : List ScoreRow) (r : ScoreRow)
    (h : uniqueScoreKeys t) :
    t.countP (fun x => decide (scoreKey x = scoreKey r)) ≤ 1 := by
  induction t with
  | nil => simp
  | cons a t ih =>
    have h' : List.Pairwise (fun a b => scoreKey a ≠ scoreKey b) (a :: t) := h
    rw [List.pairwise_cons] at h'
    obtain ⟨ha, ht⟩ := h'
    rw [List.countP_cons]
    by_cases hma : scoreKey a = scoreKey r
    · have hzero : t.countP (fun x => decide (scoreKey x = scoreKey r)) = 0 := by
        rw [List.countP_eq_zero]
        intro b hb
        simp only [decide_eq_true_eq]
        intro hbr
        exact ha b hb (hma.trans hbr.symm)
      simp [hzero, hma]
    · have hle := ih ht
      simp [hma]
      omega

/-- C8: upserting a CandidateScore under the schema's
`UNIQUE(candidate_id, job_id)` constraint keeps all keys unique and leaves
exactly one row for the re-scored (candidate, job) pair — re-scoring
overwrites, it never duplicates. -/
theorem upsertScore_at_most_one (t : List ScoreRow) (r : ScoreRow)
    (h : uniqueScoreKeys t) :
    uniqueScoreKeys (upsertScore t r) ∧
      ((upsertScore t r).filter (fun x => decide (scoreKey x = scoreKey r))).length = 1 := by
  unfold upsertScore
  by_cases hany : t.any (fun x => decide (scoreKey x = scoreKey r)) = true
  · rw [if_pos hany]
    constructor
    · refine List.Pairwise.map _ ?_ h
      intro a b hab
      by_cases ha : scoreKey a = scoreKey r <;> by_cases hb : scoreKey b = scoreKey r
      · exact absurd (ha.trans hb.symm) hab
      · simp only [if_pos ha, if_neg hb]
        exact fun e => hb e.symm
      · simp only [if_neg ha, if_pos hb]
        exact fun e => ha e
      · simp only [if_neg ha, if_neg hb]
        exact hab
    · rw [← List.countP_eq_length_filter, List.countP_map]
      have hle := uniqueScoreKeys_countP_le t r h
      have hge : 0 < t.countP (fun x => decide (scoreKey x = scoreKey r)) := by
        rw [List.countP_pos_iff]
        obtain ⟨x, hx, hpx⟩ := List.any_eq_true.mp hany
        exact ⟨x, hx, hpx⟩
      have hcomp : ((fun x => decide (scoreKey x = scoreKey r)) ∘
          (fun x => if scoreKey x = scoreKey r then r else x)) =
          (fun x => decide (scoreKey x = scoreKey r)) := by
        funext x
        by_cases hx : scoreKey x = scoreKey r
        · simp [hx]
        · simp [hx]
      rw [hcomp]
      omega
  · rw [if_neg hany]
    have hall : ∀ x ∈ t, ¬ (scoreKey x = scoreKey r) := by
      intro x hx hxe
      exact hany (List.any_eq_true.mpr ⟨x, hx, by simp [hxe]⟩)
    constructor
    · refine List.pairwise_append.mpr ⟨h, List.pairwise_singleton _ _, ?_⟩
      intro a ha b hb
      rw [List.mem_singleton] at hb
      subst hb
      exact hall a ha
    · rw [← List.countP_eq_length_filter, List.countP_append]
      have h0 : t.countP (fun x => decide (scoreKey x = scoreKey r)) = 0 := by
        rw [List.countP_eq_zero]
        intro a ha
        simp [hall a ha]
      simp [h0]

/-- Existing candidate_score row for the witness table. -/
def rowEx1 : ScoreRow :=
  { candidate_id := "cand-1", job_id := "job-1", composite_score := 0.8, category := "top" }

/-- Re-scored row for the same (candidate, job) pair. -/
def rowEx2 : ScoreRow :=
  { candidate_id := "cand-1", job_id := "job-1", composite_score := 0.85, category := "top" }

/-- Witness for C8: re-scoring an existing pair leaves one row for that key
and keeps the table's keys unique. -/
theorem upsertScore_at_most_one_witness :
    uniqueScoreKeys (upsertScore [rowEx1] rowEx2) ∧
      ((upsertScore [rowEx1] rowEx2).filter
        (fun x => decide (scoreKey x = scoreKey rowEx2))).length = 1 :=
  upsertScore_at_most_one [rowEx1] rowEx2 (List.pairwise_singleton _ _)
